import Mathlib

/-!
Shallow embedding of the `blkdb` package (BlockTreeDB over a key-value
store) of whunmr/copernicus, together with theorems settling the frozen
claims about it.

Bytes are modelled as `List Nat`; machine integers as `Nat`/`Int` with
explicit two's-complement conversions where the source converts.  The
underlying `db.DBWrapper` and the codec helpers (`util.WriteElements`,
`util.ReadElements`, the record `Serialize`/`Unserialize` methods) are not
part of the staged sources; they are modelled from the spec where noted.
A Go runtime panic is modelled as an explicit result constructor (or
`none`), never as an arbitrary value.
-/

namespace BlkDB

/-- A byte string (each entry intended < 256). -/
abbrev Bytes := List Nat

/-- A block/tx hash: `util.Hash`, a 32-byte array, modelled as a byte list. -/
abbrev Hash := List Nat

/-- The all-zero hash `util.Hash{}` (32 zero bytes). -/
def nullHash : Hash := List.replicate 32 0

/-- `util.Hash.IsNull`: every byte is zero. -/
def isNullHash (h : Hash) : Bool := h.all (fun b => b == 0)

/-! ### Key-category prefix bytes (package `persist/db`)

Modelled from the spec: "Single-byte category prefixes disambiguate five
logical tables sharing one keyspace".  The concrete byte values are not in
the staged sources; only their distinctness matters here. -/

def DbBlockFiles : Nat := 102
def DbBlockIndex : Nat := 98
def DbTxIndex : Nat := 116
def DbLastBlock : Nat := 108
def DbMaxBlock : Nat := 77
def DbReindexFlag : Nat := 82
def DbFlag : Nat := 70

/-! ### The key-value store

Modelled from the spec: "KeyValueStore: thin adapter over an embedded
ordered byte-keyed storage engine (get/put/batch/range-scan)" with
"get(key) -> bytes | NotFound".  A read of an absent key yields no bytes
and a NotFound error (the staged `ReadBlockFileInfo` compares the returned
error against `leveldb.ErrNotFound`, fixing this shape). -/

/-- Error from the underlying engine. -/
inductive DBErr where
  | notFound
  | ioErr
  deriving DecidableEq

/-- The persistent keyspace: an association list from keys to values. -/
abbrev Store := List (Bytes × Bytes)

def storeGet : Store → Bytes → Option Bytes
  | [], _ => none
  | (k, v) :: rest, key => if k = key then some v else storeGet rest key

def storePut : Store → Bytes → Bytes → Store
  | [], key, v => [(key, v)]
  | (k, w) :: rest, key, v =>
    if k = key then (key, v) :: rest else (k, w) :: storePut rest key v

/-- `dbw.Read`: the value and the error, exactly one of which is present. -/
def dbRead (s : Store) (k : Bytes) : Option Bytes × Option DBErr :=
  match storeGet s k with
  | some v => (some v, none)
  | none => (none, some DBErr.notFound)

/-- `dbw.Write`; the sync flag does not affect the resulting keyspace. -/
def dbWrite (s : Store) (k v : Bytes) (_sync : Bool) : Store := storePut s k v

/-! ### Fixed-width little-endian integer codec

Modelled from the spec: "Record values use fixed-width binary encodings
mirroring each record's consensus wire layout (explicit field order and
endianness per field)" — the Bitcoin wire layout is little-endian.  This
stands in for `util.WriteElements` / `util.ReadElements` on unsigned
fixed-width integers. -/

/-- `w`-byte little-endian encoding of `v` (mod `256^w`). -/
def leBytes : Nat → Nat → Bytes
  | 0, _ => []
  | n + 1, v => v % 256 :: leBytes n (v / 256)

/-- Little-endian value of a byte string. -/
def decodeLE : Bytes → Nat
  | [] => 0
  | b :: rest => b + 256 * decodeLE rest

/-- Go's `uint64(x)` on an integer: two's-complement reduction mod 2^64. -/
def toU64 (x : Int) : Nat := (x % (2 : Int) ^ 64).toNat

/-- Read back a `Nat` below 2^32 as a Go `int32` value. -/
def int32OfNat (n : Nat) : Int :=
  if n < 2 ^ 31 then (n : Int) else (n : Int) - 2 ^ 32

/-! ### Named boolean flags (`WriteFlag` / `ReadFlag`) -/

/-- Key of a named flag: the flag prefix byte followed by the name bytes. -/
def flagKey (name : Bytes) : Bytes := DbFlag :: name

/-- `BlockTreeDB.WriteFlag`: writes byte '1' (49) when `value` is false and
byte '0' (48) when `value` is true, as the staged source does. -/
def WriteFlag (s : Store) (name : Bytes) (value : Bool) : Store :=
  if !value then dbWrite s (flagKey name) [49] value
  else dbWrite s (flagKey name) [48] value

/-- `BlockTreeDB.ReadFlag`.  The source evaluates `b[0] == '1' && err == nil`
left to right; when the read returns no bytes, indexing `b[0]` is a runtime
panic on a nil/empty slice, modelled as `none`. -/
def ReadFlag (s : Store) (name : Bytes) : Option Bool :=
  match dbRead s (flagKey name) with
  | (some (b0 :: _), err) => some (b0 == 49 && err == none)
  | (some [], _) => none
  | (none, _) => none

/-! ### Max-block-file counter (`WriteMaxBlockFile` / `ReadMaxBlockFile`) -/

/-- Error of a read accessor: an engine error or a value-decode failure. -/
inductive ReadErr where
  | store (e : DBErr)
  | decode
  deriving DecidableEq

/-- `BlockTreeDB.WriteMaxBlockFile`: encodes `uint64(file)` under the
max-block singleton key. -/
def WriteMaxBlockFile (s : Store) (file : Int) : Store :=
  dbWrite s [DbMaxBlock] (leBytes 8 (toU64 file)) false

/-- `BlockTreeDB.ReadMaxBlockFile`: returns (-2, err) on a read error;
otherwise decodes an `int32` from the value's first four bytes, leaving the
-2 default (plus a decode error) when fewer than four bytes are present. -/
def ReadMaxBlockFile (s : Store) : Int × Option ReadErr :=
  match dbRead s [DbMaxBlock] with
  | (_, some e) => (-2, some (ReadErr.store e))
  | (some data, none) =>
    if data.length < 4 then (-2, some ReadErr.decode)
    else (int32OfNat (decodeLE (data.take 4)), none)
  | (none, none) => (-2, some ReadErr.decode)

/-! ### Block-file metadata (`WriteBatchSync` / `ReadBlockFileInfo`) -/

/-- `block.BlockFileInfo`: its own file id plus the aggregate block count and
size.  Modelled from the spec: "BlockFileInfo: file id → aggregate block
count/size". -/
structure BlockFileInfo where
  index : Int
  Blocks : Nat
  Size : Nat
  deriving DecidableEq

/-- Modelled from the spec: `BlockFileInfo.Serialize` — fixed-width encoding
of the aggregate fields (the file id is carried by the key, not the value). -/
def serializeBFI (b : BlockFileInfo) : Bytes :=
  leBytes 4 b.Blocks ++ leBytes 4 b.Size

/-- Modelled from the spec: `BlockFileInfo.Unserialize`, the inverse of
`serializeBFI`; fails on a short value. -/
def unserializeBFI (bs : Bytes) : Option BlockFileInfo :=
  if bs.length < 8 then none
  else some ⟨0, decodeLE (bs.take 4), decodeLE ((bs.drop 4).take 4)⟩

/-- Key of the per-file metadata record for file id `file`: the block-files
prefix byte followed by the encoding of `uint64(file)`. -/
def blockFileKey (file : Int) : Bytes := DbBlockFiles :: leBytes 8 (toU64 file)

/-- Result of `ReadBlockFileInfo`: the value/error pair it returns, or the
panic it raises on a non-NotFound engine error. -/
inductive RBFIResult where
  | ok (v : Option BlockFileInfo) (decodeErr : Bool)
  | panicked
  deriving DecidableEq

/-- `BlockTreeDB.ReadBlockFileInfo`: NotFound yields `(nil, nil)`; any other
engine error panics ("read failed ...."); otherwise the value is decoded and
the record is returned together with the decode error, a zero-valued record
standing for a failed decode. -/
def ReadBlockFileInfo (s : Store) (file : Int) : RBFIResult :=
  match dbRead s (blockFileKey file) with
  | (_, some DBErr.notFound) => RBFIResult.ok none false
  | (_, some _) => RBFIResult.panicked
  | (some v, none) =>
    match unserializeBFI v with
    | some bfi => RBFIResult.ok (some bfi) false
    | none => RBFIResult.ok (some ⟨0, 0, 0⟩) true
  | (none, none) => RBFIResult.panicked

/-! ### The block-index record and its in-memory node -/

/-- `block.BlockHeader`: the persisted header fields the loader copies. -/
structure BlockHeader where
  Version : Int
  HashPrevBlock : Hash
  MerkleRoot : Hash
  Time : Nat
  Bits : Nat
  Nonce : Nat
  deriving DecidableEq

/-- `block.NewBlockHeader()`: zero header, with null hashes. -/
def NewBlockHeader : BlockHeader :=
  { Version := 0, HashPrevBlock := nullHash, MerkleRoot := nullHash,
    Time := 0, Bits := 0, Nonce := 0 }

/-- The persisted fields of `blockindex.BlockIndex` (everything the loader
copies out of a decoded record, including the record's own hash). -/
structure BlockIndexData where
  Header : BlockHeader
  Height : Int
  File : Int
  DataPos : Nat
  UndoPos : Nat
  Status : Nat
  TxCount : Int
  blockHash : Hash
  deriving DecidableEq

/-- Zero-valued record: the fields of `blockindex.NewBlockIndex(block.NewBlockHeader())`. -/
def NewBlockIndexData : BlockIndexData :=
  { Header := NewBlockHeader, Height := 0, File := 0, DataPos := 0,
    UndoPos := 0, Status := 0, TxCount := 0, blockHash := nullHash }

/-- An in-memory node: the record fields plus the parent reference.  The Go
`Prev *BlockIndex` pointer becomes an index into the arena of nodes (spec
§9 suggests exactly this arena reading of the pointer graph). -/
structure BlockIndexNode extends BlockIndexData where
  Prev : Option Nat
  deriving DecidableEq

/-- `blockindex.NewBlockIndex(block.NewBlockHeader())`: a fresh stub node. -/
def NewBlockIndex : BlockIndexNode := { NewBlockIndexData with Prev := none }

/-- The in-memory side of the load: the arena of allocated nodes and the
`blkIdxMap` hash→node map, as a map into arena positions. -/
structure LoadState where
  arena : List BlockIndexNode
  idx : List (Hash × Nat)
  deriving DecidableEq

def emptyState : LoadState := ⟨[], []⟩

/-- Lookup in the hash→node map (`blkIdxMap[hash]`). -/
def lookupIdx : List (Hash × Nat) → Hash → Option Nat
  | [], _ => none
  | (h, i) :: rest, key => if h = key then some i else lookupIdx rest key

/-- The node a hash currently resolves to, if any. -/
def nodeOf (st : LoadState) (h : Hash) : Option BlockIndexNode :=
  match lookupIdx st.idx h with
  | none => none
  | some i => st.arena.get? i

/-- How many bindings the hash→node map holds for a hash ("exactly one node
exists for h" is `countIdx st.idx h = 1`). -/
def countIdx : List (Hash × Nat) → Hash → Nat
  | [], _ => 0
  | (h, _) :: rest, key => (if h = key then 1 else 0) + countIdx rest key

/-- Well-formedness of a load state: every mapped position is allocated. -/
def goodState (st : LoadState) : Prop :=
  ∀ h i, lookupIdx st.idx h = some i → i < st.arena.length

/-- `blkdb.InsertBlockIndex`: return the node already mapped to `hash`;
otherwise, unless the hash is null, allocate a fresh stub node and map the
hash to it.  Returns the node (as an arena position; `none` is Go's nil)
and the updated state. -/
def InsertBlockIndex (hash : Hash) (st : LoadState) : Option Nat × LoadState :=
  match lookupIdx st.idx hash with
  | some i => (some i, st)
  | none =>
    if isNullHash hash then (none, st)
    else
      (some st.arena.length,
        ⟨st.arena ++ [NewBlockIndex], (hash, st.arena.length) :: st.idx⟩)

/-! ### The loader (`LoadBlockIndexGuts`) -/

/-- A persisted block-index value as the codec presents it to the loader:
either a fully decoded record, or a decode failure (`bad`) carrying the
partially decoded fields `Unserialize` left in the freshly allocated
record.  Modelled from the spec for the missing `BlockIndex.Unserialize`:
"Decode; if decode fails, ... corruption error". -/
inductive IndexVal where
  | ok (r : BlockIndexData)
  | bad (r : BlockIndexData)
  deriving DecidableEq

/-- The record the loop variable `bi` holds after `Unserialize` ran on the
value: the decoded record, or the partially decoded leftovers. -/
def decoded : IndexVal → BlockIndexData
  | IndexVal.ok r => r
  | IndexVal.bad r => r

/-- The block-index keyspace slice the cursor scans: entries keyed by the
hash portion of the `DbBlockIndex`-prefixed key, in scan order. -/
abbrev IndexStore := List (Hash × IndexVal)

/-- Result of `LoadBlockIndexGuts`: the block-index keyspace after the
loader's defensive erasures, the in-memory state, and the returned bool. -/
structure LoadResult where
  store : IndexStore
  state : LoadState
  ok : Bool
  deriving DecidableEq

/-- The node built for a visited record: the source overwrites every field
of the obtained node with the decoded record's fields and sets its parent
pointer, so the previous contents of the node do not survive. -/
def fillNode (bi : BlockIndexData) (pre : Option Nat) : BlockIndexNode :=
  { Header :=
      { Version := bi.Header.Version, HashPrevBlock := bi.Header.HashPrevBlock,
        MerkleRoot := bi.Header.MerkleRoot, Time := bi.Header.Time,
        Bits := bi.Header.Bits, Nonce := bi.Header.Nonce },
    Height := bi.Height, File := bi.File, DataPos := bi.DataPos,
    UndoPos := bi.UndoPos, Status := bi.Status, TxCount := bi.TxCount,
    blockHash := bi.blockHash, Prev := pre }

/-- `BlockTreeDB.LoadBlockIndexGuts`, one cursor step per list entry.
A decode failure is only logged; the loop then proceeds on the partially
decoded record.  A zero transaction count erases the entry from the store
and skips it.  A proof-of-work failure returns false at once, leaving the
remaining entries unvisited and the map as mutated so far.  `checkPow` is
the consensus module's `pow.Pow.CheckProofOfWork` applied to the record's
hash and its declared bits (the consensus parameters are folded into it). -/
def LoadBlockIndexGuts (checkPow : Hash → Nat → Bool) :
    IndexStore → LoadState → LoadResult
  | [], st => ⟨[], st, true⟩
  | (k, v) :: rest, st =>
    let bi := decoded v
    if bi.TxCount = 0 then
      LoadBlockIndexGuts checkPow rest st
    else
      match InsertBlockIndex bi.blockHash st with
      | (none, st1) =>
        let r := LoadBlockIndexGuts checkPow rest st1
        ⟨(k, v) :: r.store, r.state, r.ok⟩
      | (some i, st1) =>
        match InsertBlockIndex bi.Header.HashPrevBlock st1 with
        | (pre, st2) =>
          let st3 : LoadState := ⟨st2.arena.set i (fillNode bi pre), st2.idx⟩
          if checkPow bi.blockHash bi.Header.Bits then
            let r := LoadBlockIndexGuts checkPow rest st3
            ⟨(k, v) :: r.store, r.state, r.ok⟩
          else ⟨(k, v) :: rest, st3, false⟩

/-! ### Tx-location index (`ReadTxIndex`) -/

/-- `block.DiskTxPos`: file id and offsets locating a transaction. -/
structure DiskTxPos where
  File : Int
  Pos : Nat
  TxOffsetInBlock : Nat
  deriving DecidableEq

/-- `block.NewDiskTxPos(nil, 0)`: the zero-valued position record. -/
def NewDiskTxPos : DiskTxPos := ⟨0, 0, 0⟩

/-- Modelled from the spec: `DiskTxPos.Unserialize` — fixed-width decode of
the three fields; fails on a short value. -/
def unserializeDTP (bs : Bytes) : Option DiskTxPos :=
  if bs.length < 12 then none
  else some ⟨int32OfNat (decodeLE (bs.take 4)),
             decodeLE ((bs.drop 4).take 4),
             decodeLE ((bs.drop 8).take 4)⟩

/-- Result of `ReadTxIndex`: the value/error pair, or the panic raised when
the underlying read returns any error (including NotFound for an absent
key). -/
inductive TxIndexResult where
  | ok (v : Option DiskTxPos) (decodeErr : Bool)
  | panicked
  deriving DecidableEq

/-- `BlockTreeDB.ReadTxIndex`: panics whenever `dbw.Read` returns an error;
otherwise decodes the value into a fresh `DiskTxPos` and returns it with
the decode error (the zero record standing for a failed decode). -/
def ReadTxIndex (s : Store) (txid : Hash) : TxIndexResult :=
  match dbRead s (DbTxIndex :: txid) with
  | (_, some _) => TxIndexResult.panicked
  | (some v, none) =>
    match unserializeDTP v with
    | some d => TxIndexResult.ok (some d) false
    | none => TxIndexResult.ok (some NewDiskTxPos) true
  | (none, none) => TxIndexResult.ok none false

/-! ### Batch writer (`WriteBatchSync`) -/

/-- Modelled from the spec: `BlockIndex.Serialize` — some fixed, stable
encoding of the persisted record fields (spec §9: any stable documented
encoding is acceptable); its exact shape is irrelevant to the claims. -/
def serializeBI (v : BlockIndexData) : Bytes :=
  leBytes 4 v.Height.toNat ++ leBytes 4 v.File.toNat ++ leBytes 4 v.DataPos ++
    leBytes 4 v.UndoPos ++ leBytes 4 v.Status ++ leBytes 4 v.TxCount.toNat ++
    v.blockHash

/-- `BlockTreeDB.WriteBatchSync`: builds one batch holding every file-info
record — each, as in the source, under the key for `uint64(0)` rather than
its own file id — then the last-file counter, then every block-index record
under its hash key, and commits the batch atomically. -/
def WriteBatchSync (s : Store) (fileInfoList : List BlockFileInfo)
    (lastFile : Int) (blockIndexes : List BlockIndexData) : Store :=
  let batch : List (Bytes × Bytes) :=
    fileInfoList.map (fun v => (blockFileKey 0, serializeBFI v))
      ++ [([DbLastBlock], leBytes 8 (toU64 lastFile))]
      ++ blockIndexes.map (fun v => (DbBlockIndex :: v.blockHash, serializeBI v))
  batch.foldl (fun st kv => storePut st kv.1 kv.2) s

/-! ### Concrete fixtures used in counterexamples and witnesses -/

/-- A proof-of-work check that accepts every header. -/
def powAlways : Hash → Nat → Bool := fun _ _ => true

/-- A proof-of-work check that rejects every header. -/
def powNever : Hash → Nat → Bool := fun _ _ => false

/-- A block-index record with the given hash, previous hash and tx count. -/
def mkRec (h prev : Hash) (tx : Int) : BlockIndexData :=
  { NewBlockIndexData with
      TxCount := tx
      blockHash := h
      Header := { NewBlockHeader with HashPrevBlock := prev } }

/-- Partially decoded leftovers of an undecodable record: nonzero tx count. -/
def badRec : BlockIndexData := mkRec [1] nullHash 7

/-- A well-formed record used to exercise the proof-of-work branch. -/
def powRec : BlockIndexData := mkRec [2] nullHash 1

/-- A record with transaction count zero. -/
def zeroRec : BlockIndexData := mkRec [3] nullHash 0

/-- A file-info record owned by file id 1. -/
def bfiOne : BlockFileInfo := ⟨1, 5, 7⟩

/-! ## Helper lemmas -/

theorem storeGet_storePut_self (s : Store) (k v : Bytes) :
    storeGet (storePut s k v) k = some v := by
  induction s with
  | nil => simp [storePut, storeGet]
  | cons e rest ih =>
    obtain ⟨k', v'⟩ := e
    by_cases h : k' = k
    · subst h; simp [storePut, storeGet]
    · simp [storePut, storeGet, h, ih]

theorem dbRead_dbWrite_self (s : Store) (k v : Bytes) (b : Bool) :
    dbRead (dbWrite s k v b) k = (some v, none) := by
  simp [dbRead, dbWrite, storeGet_storePut_self]

theorem leBytes_length : ∀ (w v : Nat), (leBytes w v).length = w
  | 0, _ => rfl
  | w + 1, v => by simp [leBytes, leBytes_length w]

theorem leBytes_take : ∀ (m w v : Nat), (leBytes (m + w) v).take m = leBytes m v
  | 0, _, _ => by simp [leBytes]
  | m + 1, w, v => by
    have h : m + 1 + w = (m + w) + 1 := by omega
    rw [h, leBytes, leBytes]
    simpa using leBytes_take m w (v / 256)

theorem decodeLE_leBytes : ∀ (w v : Nat), decodeLE (leBytes w v) = v % 256 ^ w
  | 0, v => by simp [leBytes, decodeLE, Nat.mod_one]
  | w + 1, v => by
    have h : (256 : Nat) ^ (w + 1) = 256 * 256 ^ w := by ring
    rw [leBytes, decodeLE, decodeLE_leBytes w (v / 256), h, Nat.mod_mul]

theorem toU64_of_nonneg (f : Int) (h0 : 0 ≤ f) (h1 : f < 2 ^ 64) :
    toU64 f = f.toNat := by
  unfold toU64
  rw [Int.emod_eq_of_lt h0 h1]

/-! ### Lemmas about `InsertBlockIndex` and the loader -/

theorem insert_found (h : Hash) (st : LoadState) (i : Nat)
    (hc : lookupIdx st.idx h = some i) :
    InsertBlockIndex h st = (some i, st) := by
  unfold InsertBlockIndex
  rw [hc]

theorem insert_fresh (h : Hash) (st : LoadState)
    (hc : lookupIdx st.idx h = none) (hn : isNullHash h = false) :
    InsertBlockIndex h st =
      (some st.arena.length,
        ⟨st.arena ++ [NewBlockIndex], (h, st.arena.length) :: st.idx⟩) := by
  unfold InsertBlockIndex
  rw [hc]
  simp [hn]

theorem insert_null (h : Hash) (st : LoadState)
    (hc : lookupIdx st.idx h = none) (hn : isNullHash h = true) :
    InsertBlockIndex h st = (none, st) := by
  unfold InsertBlockIndex
  rw [hc]
  simp [hn]

theorem insert_preserves_lookup (h h' : Hash) (st : LoadState) (i' : Nat)
    (hl : lookupIdx st.idx h' = some i') :
    lookupIdx (InsertBlockIndex h st).2.idx h' = some i' := by
  unfold InsertBlockIndex
  cases hc : lookupIdx st.idx h with
  | some i => simpa using hl
  | none =>
    by_cases hn : isNullHash h
    · simpa [hn] using hl
    · have hne : h ≠ h' := fun e => by rw [e, hl] at hc; cases hc
      simp [hn, lookupIdx, hne, hl]

theorem insert_preserves_arena_get (h : Hash) (st : LoadState) (i : Nat)
    (hi : i < st.arena.length) :
    (InsertBlockIndex h st).2.arena.get? i = st.arena.get? i := by
  unfold InsertBlockIndex
  cases hc : lookupIdx st.idx h with
  | some j => rfl
  | none =>
    by_cases hn : isNullHash h
    · simp [hn]
    · simp [hn, List.getElem?_append_left hi]

theorem insert_arena_length (h : Hash) (st : LoadState) :
    st.arena.length ≤ (InsertBlockIndex h st).2.arena.length := by
  unfold InsertBlockIndex
  cases hc : lookupIdx st.idx h with
  | some j => exact le_refl _
  | none =>
    by_cases hn : isNullHash h
    · simp [hn]
    · simp [hn]

theorem insert_preserves_count (h hh : Hash) (st : LoadState) (i : Nat)
    (hl : lookupIdx st.idx hh = some i) :
    countIdx (InsertBlockIndex h st).2.idx hh = countIdx st.idx hh := by
  unfold InsertBlockIndex
  cases hc : lookupIdx st.idx h with
  | some j => rfl
  | none =>
    by_cases hn : isNullHash h
    · simp [hn]
    · have hne : h ≠ hh := fun e => by rw [e, hl] at hc; cases hc
      simp [hn, countIdx, hne]

theorem goodState_empty : goodState emptyState := by
  intro h i hl
  simp [emptyState, lookupIdx] at hl

theorem insert_goodState (h : Hash) (st : LoadState) (hg : goodState st) :
    goodState (InsertBlockIndex h st).2 := by
  unfold InsertBlockIndex
  cases hc : lookupIdx st.idx h with
  | some j => exact hg
  | none =>
    by_cases hn : isNullHash h
    · simpa [hn] using hg
    · simp only [hn]
      intro h' i' hl'
      simp only [lookupIdx] at hl'
      by_cases he : h = h'
      · simp [he] at hl'
        simp [List.length_append]
        omega
      · simp only [if_neg he] at hl'
        have := hg h' i' hl'
        simp [List.length_append]
        omega

theorem goodState_set (st : LoadState) (i : Nat) (n : BlockIndexNode)
    (hg : goodState st) :
    goodState ⟨st.arena.set i n, st.idx⟩ := by
  intro h' i' hl'
  have := hg h' i' hl'
  simpa [List.length_set] using this

theorem insert_self_lookup (h : Hash) (st : LoadState)
    (hn : isNullHash h = false) (hg : goodState st) :
    ∃ j, (InsertBlockIndex h st).1 = some j ∧
      lookupIdx (InsertBlockIndex h st).2.idx h = some j ∧
      j < (InsertBlockIndex h st).2.arena.length := by
  cases hc : lookupIdx st.idx h with
  | some j =>
    refine ⟨j, ?_⟩
    rw [insert_found h st j hc]
    exact ⟨rfl, hc, hg h j hc⟩
  | none =>
    refine ⟨st.arena.length, ?_⟩
    rw [insert_fresh h st hc hn]
    simp [lookupIdx]

theorem load_nil (cp : Hash → Nat → Bool) (st : LoadState) :
    LoadBlockIndexGuts cp [] st = ⟨[], st, true⟩ := rfl

theorem load_cons_zero (cp : Hash → Nat → Bool) (k : Hash) (v : IndexVal)
    (rest : IndexStore) (st : LoadState) (h : (decoded v).TxCount = 0) :
    LoadBlockIndexGuts cp ((k, v) :: rest) st = LoadBlockIndexGuts cp rest st := by
  rw [LoadBlockIndexGuts.eq_2]
  simp [h]

theorem load_cons_step (cp : Hash → Nat → Bool) (k : Hash) (v : IndexVal)
    (rest : IndexStore) (st : LoadState) (htx : (decoded v).TxCount ≠ 0)
    (i : Nat) (st1 : LoadState)
    (hi : InsertBlockIndex (decoded v).blockHash st = (some i, st1))
    (pre : Option Nat) (st2 : LoadState)
    (hp : InsertBlockIndex (decoded v).Header.HashPrevBlock st1 = (pre, st2))
    (hpw : cp (decoded v).blockHash (decoded v).Header.Bits = true) :
    LoadBlockIndexGuts cp ((k, v) :: rest) st =
      ⟨(k, v) :: (LoadBlockIndexGuts cp rest
          ⟨st2.arena.set i (fillNode (decoded v) pre), st2.idx⟩).store,
        (LoadBlockIndexGuts cp rest
          ⟨st2.arena.set i (fillNode (decoded v) pre), st2.idx⟩).state,
        (LoadBlockIndexGuts cp rest
          ⟨st2.arena.set i (fillNode (decoded v) pre), st2.idx⟩).ok⟩ := by
  rw [LoadBlockIndexGuts.eq_2]
  simp [htx, hi, hp, hpw]

theorem load_cons_powfail (cp : Hash → Nat → Bool) (k : Hash) (v : IndexVal)
    (rest : IndexStore) (st : LoadState) (htx : (decoded v).TxCount ≠ 0)
    (i : Nat) (st1 : LoadState)
    (hi : InsertBlockIndex (decoded v).blockHash st = (some i, st1))
    (pre : Option Nat) (st2 : LoadState)
    (hp : InsertBlockIndex (decoded v).Header.HashPrevBlock st1 = (pre, st2))
    (hpw : cp (decoded v).blockHash (decoded v).Header.Bits = false) :
    LoadBlockIndexGuts cp ((k, v) :: rest) st =
      ⟨(k, v) :: rest, ⟨st2.arena.set i (fillNode (decoded v) pre), st2.idx⟩, false⟩ := by
  rw [LoadBlockIndexGuts.eq_2]
  simp [htx, hi, hp, hpw]

theorem load_store_subset (cp : Hash → Nat → Bool) :
    ∀ (str : IndexStore) (st : LoadState) (e : Hash × IndexVal),
      e ∈ (LoadBlockIndexGuts cp str st).store → e ∈ str := by
  intro str
  induction str with
  | nil =>
    intro st e he
    simp [LoadBlockIndexGuts] at he
  | cons kv rest ih =>
    intro st e he
    obtain ⟨k, v⟩ := kv
    rw [LoadBlockIndexGuts.eq_2] at he
    by_cases htx : (decoded v).TxCount = 0
    · simp only [htx, if_true] at he
      exact List.mem_cons_of_mem _ (ih st e he)
    · simp only [htx, if_false] at he
      rcases hq : InsertBlockIndex (decoded v).blockHash st with ⟨o, st1⟩
      rw [hq] at he
      cases o with
      | none =>
        simp only at he
        rcases List.mem_cons.mp he with h1 | h1
        · exact List.mem_cons.mpr (Or.inl h1)
        · exact List.mem_cons_of_mem _ (ih st1 e h1)
      | some i =>
        simp only at he
        rcases hp : InsertBlockIndex (decoded v).Header.HashPrevBlock st1 with ⟨pre, st2⟩
        rw [hp] at he
        by_cases hpw : cp (decoded v).blockHash (decoded v).Header.Bits
        · simp only [hpw, if_true] at he
          rcases List.mem_cons.mp he with h1 | h1
          · exact List.mem_cons.mpr (Or.inl h1)
          · exact List.mem_cons_of_mem _ (ih _ e h1)
        · simp only [hpw, if_false] at he
          exact he

/-! ## Claim theorems: flags, counters, file metadata, tx index -/

/-- Claim C1 (code bug): `WriteFlag name true` followed by `ReadFlag name`
returns `false` for every store and name, not `true` — the writer persists
byte '0' for true while the reader recognises only byte '1' as true, so the
on-disk sentinel polarity is inverted between writer and reader. -/
theorem writeFlag_true_reads_false (s : Store) (name : Bytes) :
    ReadFlag (WriteFlag s name true) name = some false := by
  unfold WriteFlag ReadFlag
  simp [dbRead_dbWrite_self]

/-- Claim C2 (code bug): a block-index record whose value fails to decode
does not abort the load.  With a single undecodable record whose partially
decoded fields carry a nonzero transaction count, `LoadBlockIndexGuts`
returns success and materializes a node from the partially decoded record,
because the source only logs the `Unserialize` error and keeps scanning. -/
theorem load_survives_decode_failure :
    (LoadBlockIndexGuts powAlways [([1], IndexVal.bad badRec)] emptyState).ok = true ∧
      nodeOf (LoadBlockIndexGuts powAlways [([1], IndexVal.bad badRec)] emptyState).state [1]
        = some (fillNode badRec none) := by
  decide

/-- Claim C3 (code bug): `WriteBatchSync` writes every file-info record under
the key for file id 0 (`uint64(0)`), not the record's own file id: after
writing the record owned by file id 1, reading file id 1 yields "not
present" while reading file id 0 yields that record's aggregates. -/
theorem writeBatchSync_fileinfo_key_is_zero :
    ReadBlockFileInfo (WriteBatchSync [] [bfiOne] 1 []) 1 = RBFIResult.ok none false ∧
      ReadBlockFileInfo (WriteBatchSync [] [bfiOne] 1 []) 0
        = RBFIResult.ok (some ⟨0, 5, 7⟩) false := by
  decide

/-- Claim C8 (code bug): `ReadTxIndex` panics whenever the underlying read
returns an error — including the NotFound error an absent key produces — so
an absent transaction id aborts the process instead of yielding a typed
error or a distinct "not present" result. -/
theorem readTxIndex_absent_key_aborts :
    ReadTxIndex [] [9] = TxIndexResult.panicked := by
  decide

/-- Claim C9 (confirmed): for every non-negative int32 file id, writing the
max-file-id counter and reading it back returns exactly that id: the writer
encodes `uint64(file)` little-endian and the reader decodes an int32 from
the first four bytes, which round-trips every value below 2^31. -/
theorem maxBlockFile_roundtrip (s : Store) (f : Int) (h0 : 0 ≤ f)
    (h1 : f < 2 ^ 31) :
    ReadMaxBlockFile (WriteMaxBlockFile s f) = (f, none) := by
  have h64 : f < 2 ^ 64 := lt_trans h1 (by norm_num)
  have hN : f.toNat < 2 ^ 31 := by omega
  unfold WriteMaxBlockFile ReadMaxBlockFile
  rw [dbRead_dbWrite_self]
  have hlen : (leBytes 8 (toU64 f)).length = 8 := leBytes_length 8 _
  have htake : (leBytes 8 (toU64 f)).take 4 = leBytes 4 (toU64 f) :=
    leBytes_take 4 4 (toU64 f)
  simp only [hlen, htake]
  norm_num
  rw [decodeLE_leBytes, toU64_of_nonneg f h0 h64]
  have hmod : f.toNat % 256 ^ 4 = f.toNat := by
    apply Nat.mod_eq_of_lt
    calc f.toNat < 2 ^ 31 := hN
    _ < 256 ^ 4 := by norm_num
  rw [hmod]
  unfold int32OfNat
  rw [if_pos hN, Int.toNat_of_nonneg h0]

/-- Closed witness for `maxBlockFile_roundtrip` at file id 5. -/
theorem maxBlockFile_roundtrip_checked :
    ReadMaxBlockFile (WriteMaxBlockFile [] 5) = (5, none) :=
  maxBlockFile_roundtrip [] 5 (by decide) (by decide)

/-- Claim C10 (code bug): `ReadFlag` on a flag whose key is absent does not
return `false`: the source inspects `b[0]` before checking the read error,
and the nil value returned with the NotFound error makes that index an
out-of-bounds access (a runtime panic, modelled as `none`). -/
theorem readFlag_absent_key_aborts :
    ReadFlag [] [116] = none := by
  decide

/-! ## Claim theorems: the loader -/

/-- Claim C4, counterexample: with one record that fails its proof-of-work
check, the load fails but the caller-supplied hash→node map keeps the node
built for that record — a caller-visible partial mutation survives the
failed load, refuting the claim's "no partial mutation" half. -/
theorem load_pow_failure_keeps_partial_map :
    (LoadBlockIndexGuts powNever [([2], IndexVal.ok powRec)] emptyState).ok = false ∧
      nodeOf (LoadBlockIndexGuts powNever [([2], IndexVal.ok powRec)] emptyState).state [2]
        = some (fillNode powRec none) := by
  decide

/-- Claim C4 as amended: a record failing its proof-of-work check makes the
load return failure at once, but the mutations of the hash→node map made up
to and including that record remain caller-visible: in particular the
failing record's own node stays mapped. -/
theorem load_pow_failure_aborts (cp : Hash → Nat → Bool) (k : Hash) (v : IndexVal)
    (rest : IndexStore) (st : LoadState)
    (htx : (decoded v).TxCount ≠ 0)
    (hn : isNullHash (decoded v).blockHash = false)
    (hg : goodState st)
    (hpw : cp (decoded v).blockHash (decoded v).Header.Bits = false) :
    (LoadBlockIndexGuts cp ((k, v) :: rest) st).ok = false ∧
      ∃ n, nodeOf (LoadBlockIndexGuts cp ((k, v) :: rest) st).state (decoded v).blockHash
        = some n := by
  obtain ⟨j, hj1, hj2, hj3⟩ := insert_self_lookup (decoded v).blockHash st hn hg
  rcases hq : InsertBlockIndex (decoded v).blockHash st with ⟨o, st1⟩
  rw [hq] at hj1 hj2 hj3
  simp only at hj1 hj2 hj3
  subst hj1
  rcases hp : InsertBlockIndex (decoded v).Header.HashPrevBlock st1 with ⟨pre, st2⟩
  have hl2 : lookupIdx st2.idx (decoded v).blockHash = some j := by
    have := insert_preserves_lookup (decoded v).Header.HashPrevBlock (decoded v).blockHash st1 j hj2
    rw [hp] at this
    exact this
  have hlen2 : j < st2.arena.length := by
    have := insert_arena_length (decoded v).Header.HashPrevBlock st1
    rw [hp] at this
    simp only at this
    omega
  rw [load_cons_powfail cp k v rest st htx j st1 hq pre st2 hp hpw]
  refine ⟨rfl, fillNode (decoded v) pre, ?_⟩
  unfold nodeOf
  simp only [hl2]
  exact List.get?_set_eq_of_lt _ (by simpa [List.length_set] using hlen2)

/-- Closed witness for `load_pow_failure_aborts`. -/
theorem load_pow_failure_aborts_checked :
    (LoadBlockIndexGuts powNever [([2], IndexVal.ok powRec)] emptyState).ok = false ∧
      ∃ n, nodeOf (LoadBlockIndexGuts powNever [([2], IndexVal.ok powRec)] emptyState).state
        (decoded (IndexVal.ok powRec)).blockHash = some n :=
  load_pow_failure_aborts powNever [2] (IndexVal.ok powRec) [] emptyState
    (by decide) (by decide) goodState_empty (by decide)

/-- Claim C5 (confirmed): for records A (hash=h1, prev=h2) and B (hash=h2,
prev=h3), in either visit order, the load succeeds, exactly one binding for
h2 exists in the hash→node map afterwards, and the node for h1 has its
parent reference equal to that single node for h2 — stub creation and later
back-fill preserve node identity. -/
theorem load_two_records_one_node (cp : Hash → Nat → Bool) (h1 h2 h3 : Hash)
    (A B : BlockIndexData)
    (hA1 : A.blockHash = h1) (hA2 : A.Header.HashPrevBlock = h2) (hA3 : A.TxCount ≠ 0)
    (hB1 : B.blockHash = h2) (hB2 : B.Header.HashPrevBlock = h3) (hB3 : B.TxCount ≠ 0)
    (hn1 : isNullHash h1 = false) (hn2 : isNullHash h2 = false) (h12 : h1 ≠ h2)
    (hpA : cp h1 A.Header.Bits = true) (hpB : cp h2 B.Header.Bits = true) :
    (∃ i,
      (LoadBlockIndexGuts cp [(h1, IndexVal.ok A), (h2, IndexVal.ok B)] emptyState).ok = true ∧
      countIdx (LoadBlockIndexGuts cp [(h1, IndexVal.ok A), (h2, IndexVal.ok B)] emptyState).state.idx h2 = 1 ∧
      lookupIdx (LoadBlockIndexGuts cp [(h1, IndexVal.ok A), (h2, IndexVal.ok B)] emptyState).state.idx h2 = some i ∧
      ∃ n, nodeOf (LoadBlockIndexGuts cp [(h1, IndexVal.ok A), (h2, IndexVal.ok B)] emptyState).state h1 = some n ∧
        n.Prev = some i) ∧
    (∃ i,
      (LoadBlockIndexGuts cp [(h2, IndexVal.ok B), (h1, IndexVal.ok A)] emptyState).ok = true ∧
      countIdx (LoadBlockIndexGuts cp [(h2, IndexVal.ok B), (h1, IndexVal.ok A)] emptyState).state.idx h2 = 1 ∧
      lookupIdx (LoadBlockIndexGuts cp [(h2, IndexVal.ok B), (h1, IndexVal.ok A)] emptyState).state.idx h2 = some i ∧
      ∃ n, nodeOf (LoadBlockIndexGuts cp [(h2, IndexVal.ok B), (h1, IndexVal.ok A)] emptyState).state h1 = some n ∧
        n.Prev = some i) := by
  have hdA : decoded (IndexVal.ok A) = A := rfl
  have hdB : decoded (IndexVal.ok B) = B := rfl
  have h21 : h2 ≠ h1 := Ne.symm h12
  constructor
  -- order A then B
  · have e1 : InsertBlockIndex (decoded (IndexVal.ok A)).blockHash emptyState
        = (some 0, ⟨[NewBlockIndex], [(h1, 0)]⟩) := by
      rw [hdA, hA1, insert_fresh h1 emptyState rfl hn1]
      rfl
    have e2 : InsertBlockIndex (decoded (IndexVal.ok A)).Header.HashPrevBlock
        (⟨[NewBlockIndex], [(h1, 0)]⟩ : LoadState)
        = (some 1, ⟨[NewBlockIndex, NewBlockIndex], [(h2, 1), (h1, 0)]⟩) := by
      rw [hdA, hA2, insert_fresh h2 ⟨[NewBlockIndex], [(h1, 0)]⟩ (by simp [lookupIdx, h12]) hn2]
      rfl
    rw [load_cons_step cp h1 (IndexVal.ok A) [(h2, IndexVal.ok B)] emptyState
      (by rw [hdA]; exact hA3) 0 _ e1 (some 1) _ e2
      (by rw [hdA, hA1]; exact hpA)]
    have hset1 : ((⟨[NewBlockIndex, NewBlockIndex], [(h2, 1), (h1, 0)]⟩ : LoadState).arena.set 0
        (fillNode (decoded (IndexVal.ok A)) (some 1)))
        = [fillNode A (some 1), NewBlockIndex] := by
      rw [hdA]; rfl
    rw [hset1]
    have e3 : InsertBlockIndex (decoded (IndexVal.ok B)).blockHash
        (⟨[fillNode A (some 1), NewBlockIndex], [(h2, 1), (h1, 0)]⟩ : LoadState)
        = (some 1, ⟨[fillNode A (some 1), NewBlockIndex], [(h2, 1), (h1, 0)]⟩) := by
      rw [hdB, hB1]
      apply insert_found
      simp [lookupIdx]
    rcases hq : InsertBlockIndex (decoded (IndexVal.ok B)).Header.HashPrevBlock
        (⟨[fillNode A (some 1), NewBlockIndex], [(h2, 1), (h1, 0)]⟩ : LoadState)
      with ⟨pre, st4⟩
    rw [load_cons_step cp h2 (IndexVal.ok B) [] _
      (by rw [hdB]; exact hB3) 1 _ e3 pre st4 hq
      (by rw [hdB, hB1]; exact hpB), load_nil]
    have l32 : lookupIdx (⟨[fillNode A (some 1), NewBlockIndex], [(h2, 1), (h1, 0)]⟩ : LoadState).idx h2
        = some 1 := by simp [lookupIdx]
    have l31 : lookupIdx (⟨[fillNode A (some 1), NewBlockIndex], [(h2, 1), (h1, 0)]⟩ : LoadState).idx h1
        = some 0 := by simp [lookupIdx, h21]
    have l42 : lookupIdx st4.idx h2 = some 1 := by
      have := insert_preserves_lookup (decoded (IndexVal.ok B)).Header.HashPrevBlock h2 _ 1 l32
      rw [hq] at this
      exact this
    have l41 : lookupIdx st4.idx h1 = some 0 := by
      have := insert_preserves_lookup (decoded (IndexVal.ok B)).Header.HashPrevBlock h1 _ 0 l31
      rw [hq] at this
      exact this
    have c4 : countIdx st4.idx h2 = 1 := by
      have := insert_preserves_count (decoded (IndexVal.ok B)).Header.HashPrevBlock h2 _ 1 l32
      rw [hq] at this
      simp only at this
      rw [this]
      simp [countIdx, h12]
    have g4 : st4.arena.get? 0 = some (fillNode A (some 1)) := by
      have := insert_preserves_arena_get (decoded (IndexVal.ok B)).Header.HashPrevBlock
        (⟨[fillNode A (some 1), NewBlockIndex], [(h2, 1), (h1, 0)]⟩ : LoadState) 0 (by simp)
      rw [hq] at this
      simp only at this
      rw [this]
      rfl
    refine ⟨1, rfl, c4, l42, fillNode A (some 1), ?_, rfl⟩
    unfold nodeOf
    simp only [l41]
    rw [List.get?_set_ne _ _ (by omega)]
    exact g4
  -- order B then A
  · have f1 : InsertBlockIndex (decoded (IndexVal.ok B)).blockHash emptyState
        = (some 0, ⟨[NewBlockIndex], [(h2, 0)]⟩) := by
      rw [hdB, hB1, insert_fresh h2 emptyState rfl hn2]
      rfl
    rcases hq1 : InsertBlockIndex (decoded (IndexVal.ok B)).Header.HashPrevBlock
        (⟨[NewBlockIndex], [(h2, 0)]⟩ : LoadState) with ⟨preB, st2⟩
    rw [load_cons_step cp h2 (IndexVal.ok B) [(h1, IndexVal.ok A)] emptyState
      (by rw [hdB]; exact hB3) 0 _ f1 preB st2 hq1
      (by rw [hdB, hB1]; exact hpB)]
    rw [hdB]
    -- state after B: st3 = ⟨st2.arena.set 0 (fillNode B preB), st2.idx⟩
    have gA : goodState (⟨[NewBlockIndex], [(h2, 0)]⟩ : LoadState) := by
      intro h' i' hl'
      simp only [lookupIdx] at hl'
      by_cases he : h2 = h'
      · simp [he] at hl'
        simp [← hl']
      · simp [he, lookupIdx] at hl'
    have g2 : goodState st2 := by
      have := insert_goodState (decoded (IndexVal.ok B)).Header.HashPrevBlock _ gA
      rw [hq1] at this
      exact this
    have g3 : goodState (⟨st2.arena.set 0 (fillNode B preB), st2.idx⟩ : LoadState) :=
      goodState_set st2 0 _ g2
    have l22 : lookupIdx st2.idx h2 = some 0 := by
      have := insert_preserves_lookup (decoded (IndexVal.ok B)).Header.HashPrevBlock h2
        (⟨[NewBlockIndex], [(h2, 0)]⟩ : LoadState) 0 (by simp [lookupIdx])
      rw [hq1] at this
      exact this
    have c2 : countIdx st2.idx h2 = 1 := by
      have := insert_preserves_count (decoded (IndexVal.ok B)).Header.HashPrevBlock h2
        (⟨[NewBlockIndex], [(h2, 0)]⟩ : LoadState) 0 (by simp [lookupIdx])
      rw [hq1] at this
      simp only at this
      rw [this]
      simp [countIdx]
    obtain ⟨j, hj1, hj2, hj3⟩ := insert_self_lookup h1
      (⟨st2.arena.set 0 (fillNode B preB), st2.idx⟩ : LoadState) hn1 g3
    rcases hq2 : InsertBlockIndex h1 (⟨st2.arena.set 0 (fillNode B preB), st2.idx⟩ : LoadState)
      with ⟨o, st4⟩
    rw [hq2] at hj1 hj2 hj3
    simp only at hj1 hj2 hj3
    subst hj1
    have l42 : lookupIdx st4.idx h2 = some 0 := by
      have := insert_preserves_lookup h1 h2
        (⟨st2.arena.set 0 (fillNode B preB), st2.idx⟩ : LoadState) 0 l22
      rw [hq2] at this
      exact this
    have f2 : InsertBlockIndex (decoded (IndexVal.ok A)).blockHash
        (⟨st2.arena.set 0 (fillNode B preB), st2.idx⟩ : LoadState) = (some j, st4) := by
      rw [hdA, hA1]
      exact hq2
    have f3 : InsertBlockIndex (decoded (IndexVal.ok A)).Header.HashPrevBlock st4
        = (some 0, st4) := by
      rw [hdA, hA2]
      exact insert_found h2 st4 0 l42
    rw [load_cons_step cp h1 (IndexVal.ok A) [] _
      (by rw [hdA]; exact hA3) j _ f2 (some 0) st4 f3
      (by rw [hdA, hA1]; exact hpA), load_nil, hdA]
    have c4 : countIdx st4.idx h2 = 1 := by
      have := insert_preserves_count h1 h2
        (⟨st2.arena.set 0 (fillNode B preB), st2.idx⟩ : LoadState) 0 l22
      rw [hq2] at this
      simp only at this
      rw [this]
      exact c2
    refine ⟨0, rfl, c4, l42, fillNode A (some 0), ?_, rfl⟩
    unfold nodeOf
    simp only [hj2]
    exact List.get?_set_eq_of_lt _ (by simpa [List.length_set] using hj3)

/-- Closed witness for `load_two_records_one_node`. -/
theorem load_two_records_one_node_checked :
    (∃ i,
      (LoadBlockIndexGuts powAlways [([1], IndexVal.ok (mkRec [1] [2] 1)), ([2], IndexVal.ok (mkRec [2] [3] 1))] emptyState).ok = true ∧
      countIdx (LoadBlockIndexGuts powAlways [([1], IndexVal.ok (mkRec [1] [2] 1)), ([2], IndexVal.ok (mkRec [2] [3] 1))] emptyState).state.idx [2] = 1 ∧
      lookupIdx (LoadBlockIndexGuts powAlways [([1], IndexVal.ok (mkRec [1] [2] 1)), ([2], IndexVal.ok (mkRec [2] [3] 1))] emptyState).state.idx [2] = some i ∧
      ∃ n, nodeOf (LoadBlockIndexGuts powAlways [([1], IndexVal.ok (mkRec [1] [2] 1)), ([2], IndexVal.ok (mkRec [2] [3] 1))] emptyState).state [1] = some n ∧
        n.Prev = some i) ∧
    (∃ i,
      (LoadBlockIndexGuts powAlways [([2], IndexVal.ok (mkRec [2] [3] 1)), ([1], IndexVal.ok (mkRec [1] [2] 1))] emptyState).ok = true ∧
      countIdx (LoadBlockIndexGuts powAlways [([2], IndexVal.ok (mkRec [2] [3] 1)), ([1], IndexVal.ok (mkRec [1] [2] 1))] emptyState).state.idx [2] = 1 ∧
      lookupIdx (LoadBlockIndexGuts powAlways [([2], IndexVal.ok (mkRec [2] [3] 1)), ([1], IndexVal.ok (mkRec [1] [2] 1))] emptyState).state.idx [2] = some i ∧
      ∃ n, nodeOf (LoadBlockIndexGuts powAlways [([2], IndexVal.ok (mkRec [2] [3] 1)), ([1], IndexVal.ok (mkRec [1] [2] 1))] emptyState).state [1] = some n ∧
        n.Prev = some i) :=
  load_two_records_one_node powAlways [1] [2] [3] (mkRec [1] [2] 1) (mkRec [2] [3] 1)
    (by decide) (by decide) (by decide) (by decide) (by decide) (by decide)
    (by decide) (by decide) (by decide) (by decide) (by decide)

/-- Claim C6 (confirmed): a record with transaction count zero encountered
during the scan is erased from the store and neither creates nor keeps a
node: the load of the remaining entries proceeds from an unchanged state,
and the record's key is absent from the resulting store. -/
theorem load_zero_txcount_erased (cp : Hash → Nat → Bool) (k : Hash) (v : IndexVal)
    (rest : IndexStore) (st : LoadState)
    (htx : (decoded v).TxCount = 0)
    (hk : ∀ w, (k, w) ∉ rest) :
    LoadBlockIndexGuts cp ((k, v) :: rest) st = LoadBlockIndexGuts cp rest st ∧
      ∀ w, (k, w) ∉ (LoadBlockIndexGuts cp ((k, v) :: rest) st).store := by
  have h1 := load_cons_zero cp k v rest st htx
  refine ⟨h1, ?_⟩
  intro w hw
  rw [h1] at hw
  exact hk w (load_store_subset cp rest st _ hw)

/-- Closed witness for `load_zero_txcount_erased`. -/
theorem load_zero_txcount_erased_checked :
    LoadBlockIndexGuts powAlways [([3], IndexVal.ok zeroRec)] emptyState
        = LoadBlockIndexGuts powAlways [] emptyState ∧
      ∀ w, ([3], w) ∉ (LoadBlockIndexGuts powAlways [([3], IndexVal.ok zeroRec)] emptyState).store :=
  load_zero_txcount_erased powAlways [3] (IndexVal.ok zeroRec) [] emptyState
    (by decide) (by simp)

/-- Claim C7 (confirmed): a record whose previous-block hash is null gets a
nil parent and puts no node for the null hash into the map.  In the genesis
scenario (genesis record with null previous hash, child record naming the
genesis hash), after the load node(child).parent is the genesis node (arena
position 0), node(genesis).parent is none, and no null hash is mapped. -/
theorem load_null_prev_genesis (cp : Hash → Nat → Bool) (g c : Hash)
    (G C : BlockIndexData)
    (hGh : G.blockHash = g) (hGp : isNullHash G.Header.HashPrevBlock = true)
    (hGt : G.TxCount ≠ 0)
    (hCh : C.blockHash = c) (hCp : C.Header.HashPrevBlock = g) (hCt : C.TxCount ≠ 0)
    (hng : isNullHash g = false) (hnc : isNullHash c = false) (hgc : g ≠ c)
    (hpg : cp g G.Header.Bits = true) (hpc : cp c C.Header.Bits = true) :
    (LoadBlockIndexGuts cp [(g, IndexVal.ok G), (c, IndexVal.ok C)] emptyState).ok = true ∧
      lookupIdx (LoadBlockIndexGuts cp [(g, IndexVal.ok G), (c, IndexVal.ok C)] emptyState).state.idx g
        = some 0 ∧
      nodeOf (LoadBlockIndexGuts cp [(g, IndexVal.ok G), (c, IndexVal.ok C)] emptyState).state g
        = some (fillNode G none) ∧
      nodeOf (LoadBlockIndexGuts cp [(g, IndexVal.ok G), (c, IndexVal.ok C)] emptyState).state c
        = some (fillNode C (some 0)) ∧
      ∀ h0, isNullHash h0 = true →
        lookupIdx (LoadBlockIndexGuts cp [(g, IndexVal.ok G), (c, IndexVal.ok C)] emptyState).state.idx h0
          = none := by
  have hdG : decoded (IndexVal.ok G) = G := rfl
  have hdC : decoded (IndexVal.ok C) = C := rfl
  have hne : g ≠ G.Header.HashPrevBlock := by
    intro e
    rw [← e] at hGp
    rw [hng] at hGp
    exact Bool.noConfusion hGp
  have e1 : InsertBlockIndex (decoded (IndexVal.ok G)).blockHash emptyState
      = (some 0, ⟨[NewBlockIndex], [(g, 0)]⟩) := by
    rw [hdG, hGh, insert_fresh g emptyState rfl hng]
    rfl
  have e2 : InsertBlockIndex (decoded (IndexVal.ok G)).Header.HashPrevBlock
      (⟨[NewBlockIndex], [(g, 0)]⟩ : LoadState)
      = (none, ⟨[NewBlockIndex], [(g, 0)]⟩) := by
    rw [hdG]
    apply insert_null
    · simp [lookupIdx, hne]
    · exact hGp
  rw [load_cons_step cp g (IndexVal.ok G) [(c, IndexVal.ok C)] emptyState
    (by rw [hdG]; exact hGt) 0 _ e1 none _ e2
    (by rw [hdG, hGh]; exact hpg)]
  have hset1 : ((⟨[NewBlockIndex], [(g, 0)]⟩ : LoadState).arena.set 0
      (fillNode (decoded (IndexVal.ok G)) none)) = [fillNode G none] := by
    rw [hdG]; rfl
  rw [hset1]
  have e3 : InsertBlockIndex (decoded (IndexVal.ok C)).blockHash
      (⟨[fillNode G none], [(g, 0)]⟩ : LoadState)
      = (some 1, ⟨[fillNode G none, NewBlockIndex], [(c, 1), (g, 0)]⟩) := by
    rw [hdC, hCh]
    rw [insert_fresh c ⟨[fillNode G none], [(g, 0)]⟩ (by simp [lookupIdx, hgc]) hnc]
    rfl
  have e4 : InsertBlockIndex (decoded (IndexVal.ok C)).Header.HashPrevBlock
      (⟨[fillNode G none, NewBlockIndex], [(c, 1), (g, 0)]⟩ : LoadState)
      = (some 0, ⟨[fillNode G none, NewBlockIndex], [(c, 1), (g, 0)]⟩) := by
    rw [hdC, hCp]
    apply insert_found
    simp [lookupIdx, hgc.symm]
  rw [load_cons_step cp c (IndexVal.ok C) [] _
    (by rw [hdC]; exact hCt) 1 _ e3 (some 0) _ e4
    (by rw [hdC, hCh]; exact hpc)]
  have hset2 : ((⟨[fillNode G none, NewBlockIndex], [(c, 1), (g, 0)]⟩ : LoadState).arena.set 1
      (fillNode (decoded (IndexVal.ok C)) (some 0)))
      = [fillNode G none, fillNode C (some 0)] := by
    rw [hdC]; rfl
  rw [hset2, load_nil]
  refine ⟨rfl, ?_, ?_, ?_, ?_⟩
  · simp [lookupIdx, hgc.symm]
  · simp [nodeOf, lookupIdx, hgc.symm]
  · simp [nodeOf, lookupIdx]
  · intro h0 hh0
    have hg0 : g ≠ h0 := by
      intro e; rw [e, hh0] at hng; exact Bool.noConfusion hng
    have hc0 : c ≠ h0 := by
      intro e; rw [e, hh0] at hnc; exact Bool.noConfusion hnc
    simp [lookupIdx, hg0, hc0]

/-- Closed witness for `load_null_prev_genesis`. -/
theorem load_null_prev_genesis_checked :
    (LoadBlockIndexGuts powAlways [([9], IndexVal.ok (mkRec [9] nullHash 1)), ([8], IndexVal.ok (mkRec [8] [9] 1))] emptyState).ok = true ∧
      lookupIdx (LoadBlockIndexGuts powAlways [([9], IndexVal.ok (mkRec [9] nullHash 1)), ([8], IndexVal.ok (mkRec [8] [9] 1))] emptyState).state.idx [9]
        = some 0 ∧
      nodeOf (LoadBlockIndexGuts powAlways [([9], IndexVal.ok (mkRec [9] nullHash 1)), ([8], IndexVal.ok (mkRec [8] [9] 1))] emptyState).state [9]
        = some (fillNode (mkRec [9] nullHash 1) none) ∧
      nodeOf (LoadBlockIndexGuts powAlways [([9], IndexVal.ok (mkRec [9] nullHash 1)), ([8], IndexVal.ok (mkRec [8] [9] 1))] emptyState).state [8]
        = some (fillNode (mkRec [8] [9] 1) (some 0)) ∧
      ∀ h0, isNullHash h0 = true →
        lookupIdx (LoadBlockIndexGuts powAlways [([9], IndexVal.ok (mkRec [9] nullHash 1)), ([8], IndexVal.ok (mkRec [8] [9] 1))] emptyState).state.idx h0
          = none :=
  load_null_prev_genesis powAlways [9] [8] (mkRec [9] nullHash 1) (mkRec [8] [9] 1)
    (by decide) (by decide) (by decide) (by decide) (by decide) (by decide)
    (by decide) (by decide) (by decide) (by decide) (by decide)

end BlkDB
